import Mathlib

/-!
# Streaming analytics core: rolling window, anomaly detector, engine

A shallow embedding of `analytics/rolling_window.go`, `analytics/anomaly_detector.go`,
`analytics/engine.go`, `models/metric.go` and `handlers/metric_handler.go`.

Conventions.
* The definitions are generic in the type `α` of the `float64` values and use only its
  operations.  Theorems about exact arithmetic take `α` to be a linearly ordered field (no
  rounding, no NaN, no infinities), `ℝ` when a square root is needed; theorems about binary64
  arithmetic take `α` to be `F64`.
* `math.Sqrt`, `math.Abs`, `strconv.Atoi` and `time.Parse` are library functions; they enter
  the definitions as parameters.
* A Go run-time panic (index out of range, division by zero on integers) is the result `none`.
* Go `int` values that are only ever lengths or positions are natural numbers.
-/

namespace Analytics

section Embedding

/-! ## rolling_window.go -/

/-- The struct `RollingWindow`: a circular buffer with a running sum. -/
structure RollingWindow (α : Type) where
  windowSize : Nat
  values : List α
  index : Nat
  count : Nat
  sum : α

variable {α : Type} [Zero α] [One α] [HAdd α α α] [Sub α] [Mul α] [Div α] [NatCast α]
  [OfNat α 2] [LT α] [DecidableEq α] [DecidableRel (fun a b : α => a < b)]

/-- `NewRollingWindow(size)`: `make([]float64, size)` is a zero-filled buffer. -/
def NewRollingWindow (size : Nat) : RollingWindow α :=
  { windowSize := size, values := List.replicate size 0, index := 0, count := 0, sum := 0 }

/-- `RollingWindow.Add`: both branches write `values[index]` (a panic when the index is out of
range) and advance the index modulo `windowSize` (a panic when it is zero; in the first branch
`count < windowSize` excludes that). -/
def RollingWindow.Add (rw : RollingWindow α) (value : α) : Option (RollingWindow α) :=
  if rw.count < rw.windowSize then
    if rw.index < rw.values.length then
      some { rw with
        values := rw.values.set rw.index value
        sum := rw.sum + value
        count := rw.count + 1
        index := (rw.index + 1) % rw.windowSize }
    else none
  else
    match rw.values[rw.index]? with
    | none => none
    | some oldValue =>
      if rw.windowSize = 0 then none
      else
        some { rw with
          values := rw.values.set rw.index value
          sum := rw.sum - oldValue + value
          index := (rw.index + 1) % rw.windowSize }

/-- `RollingWindow.Average`. -/
def RollingWindow.Average (rw : RollingWindow α) : α :=
  if rw.count = 0 then 0 else rw.sum / (rw.count : α)

/-- `RollingWindow.GetValues`: the slice `values[:count]` while filling, the whole buffer
afterwards. -/
def RollingWindow.GetValues (rw : RollingWindow α) : List α :=
  if rw.count < rw.windowSize then rw.values.take rw.count else rw.values

/-- A sequence of `Add` calls, in order. -/
def RollingWindow.AddAll (rw : RollingWindow α) : List α → Option (RollingWindow α)
  | [] => some rw
  | x :: xs => (rw.Add x).bind (fun rw1 => RollingWindow.AddAll rw1 xs)

/-! ## anomaly_detector.go -/

/-- The struct `AnomalyDetector`.  The detector owns its window (the pointer is never shared),
so the window is held by value. -/
structure AnomalyDetector (α : Type) where
  window : RollingWindow α
  threshold : α

/-- `NewAnomalyDetector`: a 50-sample window and the threshold 2.0. -/
def NewAnomalyDetector : AnomalyDetector α :=
  { window := NewRollingWindow 50, threshold := 2 }

/-- `AnomalyDetector.calculateStdDev`; `sqrt` stands for `math.Sqrt`. -/
def AnomalyDetector.calculateStdDev (sqrt : α → α) (ad : AnomalyDetector α) : α :=
  let values := ad.window.GetValues
  if values.length < 2 then 0
  else
    let avg := ad.window.Average
    let variance := values.foldl (fun variance v => variance + (v - avg) * (v - avg)) 0
    sqrt (variance / (values.length : α))

/-- `AnomalyDetector.Detect`: the updated detector together with `(isAnomaly, zScore)`;
`sqrt` stands for `math.Sqrt` and `fabs` for `math.Abs`. -/
def AnomalyDetector.Detect (sqrt fabs : α → α) (ad : AnomalyDetector α) (value : α) :
    Option (AnomalyDetector α × Bool × α) :=
  match ad.window.Add value with
  | none => none
  | some w =>
    let ad1 : AnomalyDetector α := { ad with window := w }
    let mean := ad1.window.Average
    let stdDev := ad1.calculateStdDev sqrt
    if stdDev = 0 then some (ad1, false, 0)
    else
      let zScore := fabs ((value - mean) / stdDev)
      some (ad1, decide (zScore > ad1.threshold), zScore)

/-- A sequence of `Detect` calls, in order; the detector they leave behind. -/
def AnomalyDetector.DetectAll (sqrt fabs : α → α) (ad : AnomalyDetector α) :
    List α → Option (AnomalyDetector α)
  | [] => some ad
  | x :: xs => (ad.Detect sqrt fabs x).bind (fun r => AnomalyDetector.DetectAll sqrt fabs r.1 xs)

/-! ## models/metric.go -/

/-- The struct `Metric`. -/
structure Metric (α : Type) where
  Timestamp : String
  DeviceID : String
  CPU : α
  RPS : α

/-- `Metric.Validate`: `none` is the `nil` error, `some msg` the error returned.
`timeParse s` stands for `time.Parse(time.RFC3339, s)`, `none` being a parse error. -/
def Metric.Validate {τ : Type} (timeParse : String → Option τ) (m : Metric α) : Option String :=
  if m.DeviceID = "" then some "device_id is required"
  else if m.Timestamp = "" then some "timestamp is required"
  else if (timeParse m.Timestamp).isNone then some "invalid timestamp format, expected RFC3339"
  else if m.CPU < 0 ∨ m.CPU > 1 then some "cpu must be between 0 and 1"
  else if m.RPS < 0 then some "rps must be non-negative"
  else none

/-- The struct `AnalysisResult`, without the `ProcessedAt` time stamp. -/
structure AnalysisResult (α : Type) where
  DeviceID : String
  RollingAverageRPS : α
  IsAnomaly : Bool
  ZScore : α

/-! ## analytics/engine.go -/

/-- The struct `AnalyticsEngine`.  The two Go maps hold pointers; here a pointer is a position in
the list of all objects allocated so far (`windowHeap`, `detectorHeap`), so that a map entry
being replaced by a fresh object is visible.  `metricChan` is the content of the buffered
channel, oldest first.  The cache client and the callback are left out. -/
structure AnalyticsEngine (α : Type) where
  windowHeap : List (RollingWindow α)
  detectorHeap : List (AnomalyDetector α)
  rollingWindows : String → Option Nat
  anomalyDets : String → Option Nat
  metricChan : List (Metric α)

/-- The capacity given to `make(chan models.Metric, 10000)`. -/
def metricChanCap : Nat := 10000

/-- The engine built by `NewAnalyticsEngine`: empty maps, empty channel. -/
def AnalyticsEngine.fresh : AnalyticsEngine α :=
  { windowHeap := [], detectorHeap := [], rollingWindows := fun _ => none,
    anomalyDets := fun _ => none, metricChan := [] }

/-- The worker count computed by `NewAnalyticsEngine`; `numCPU` stands for `runtime.NumCPU()`,
`envWorkers` for `os.Getenv("ANALYTICS_WORKERS")` and `atoi` for `strconv.Atoi`
(`none` being an error). -/
def numWorkers (numCPU : Int) (envWorkers : String) (atoi : String → Option Int) : Int :=
  let numWorkers := numCPU * 2
  let numWorkers :=
    if envWorkers ≠ "" then
      match atoi envWorkers with
      | some w => if w > 0 then w else numWorkers
      | none => numWorkers
    else numWorkers
  let numWorkers := if numWorkers < 4 then 4 else numWorkers
  let numWorkers := if numWorkers > 16 then 16 else numWorkers
  numWorkers

/-- `NewAnalyticsEngine`: the engine and the number of `processMetrics` workers started by the
loop `for i := 0; i < numWorkers; i++`. -/
def NewAnalyticsEngine (numCPU : Int) (envWorkers : String) (atoi : String → Option Int) :
    AnalyticsEngine α × Nat :=
  (AnalyticsEngine.fresh, (numWorkers numCPU envWorkers atoi).toNat)

/-- `AnalyticsEngine.ProcessMetric`: a non-blocking send.  The result is the engine and the log
lines written.  No worker is receiving, so the send succeeds exactly when the buffer has room. -/
def AnalyticsEngine.ProcessMetric (ae : AnalyticsEngine α) (metric : Metric α) :
    AnalyticsEngine α × List String :=
  if ae.metricChan.length < metricChanCap then
    ({ ae with metricChan := ae.metricChan ++ [metric] }, [])
  else
    (ae, ["WARNING: Metric channel is full, dropping metric from device " ++ metric.DeviceID])

/-- A burst of `ProcessMetric` calls, in order, with the log lines collected. -/
def AnalyticsEngine.ProcessMetricAll (ae : AnalyticsEngine α) :
    List (Metric α) → AnalyticsEngine α × List String
  | [] => (ae, [])
  | m :: ms =>
    let r := ae.ProcessMetric m
    let rs := AnalyticsEngine.ProcessMetricAll r.1 ms
    (rs.1, r.2 ++ rs.2)

/-- The read-locked section of `processMetric`: both map lookups.  `none` is the `nil` pointer
of a missing entry (`exists = false`). -/
def AnalyticsEngine.lookupStep (ae : AnalyticsEngine α) (metric : Metric α) :
    Option Nat × Option Nat :=
  (ae.rollingWindows metric.DeviceID, ae.anomalyDets metric.DeviceID)

/-- The block `if !exists || !exists2 { Lock ... Unlock }` of `processMetric`, run with the
results `rollingWindow`, `anomalyDet` of the earlier lookups (`exists` is `isSome`).  It does not
look the flags up again: a missing flag allocates and stores a new object, a present flag
re-reads the map. -/
def AnalyticsEngine.createStep (ae : AnalyticsEngine α) (metric : Metric α)
    (rollingWindow anomalyDet : Option Nat) : AnalyticsEngine α × Option Nat × Option Nat :=
  if rollingWindow.isNone ∨ anomalyDet.isNone then
    let r1 : AnalyticsEngine α × Option Nat :=
      if rollingWindow.isNone then
        ({ ae with
            windowHeap := ae.windowHeap ++ [NewRollingWindow 50]
            rollingWindows := Function.update ae.rollingWindows metric.DeviceID
              (some ae.windowHeap.length) },
          some ae.windowHeap.length)
      else (ae, ae.rollingWindows metric.DeviceID)
    let r2 : AnalyticsEngine α × Option Nat :=
      if anomalyDet.isNone then
        ({ r1.1 with
            detectorHeap := r1.1.detectorHeap ++ [NewAnomalyDetector]
            anomalyDets := Function.update r1.1.anomalyDets metric.DeviceID
              (some r1.1.detectorHeap.length) },
          some r1.1.detectorHeap.length)
      else (r1.1, r1.1.anomalyDets metric.DeviceID)
    (r2.1, r1.2, r2.2)
  else (ae, rollingWindow, anomalyDet)

/-- The rest of `processMetric`: `rollingWindow.Add`, `Average`, `anomalyDet.Detect` through the
two pointers, and the `AnalysisResult`.  A `nil` or dangling pointer is a panic.  The cache
write, the log line and the callback (run when `IsAnomaly`) are not modelled. -/
def AnalyticsEngine.updateStep (sqrt fabs : α → α) (ae : AnalyticsEngine α) (metric : Metric α)
    (rollingWindow anomalyDet : Option Nat) : Option (AnalyticsEngine α × AnalysisResult α) :=
  match rollingWindow, anomalyDet with
  | some p, some q =>
    match ae.windowHeap[p]?, ae.detectorHeap[q]? with
    | some w, some d =>
      match w.Add metric.RPS with
      | none => none
      | some w1 =>
        match d.Detect sqrt fabs metric.RPS with
        | none => none
        | some (d1, isAnomaly, zScore) =>
          some ({ ae with
                  windowHeap := ae.windowHeap.set p w1
                  detectorHeap := ae.detectorHeap.set q d1 },
                { DeviceID := metric.DeviceID
                  RollingAverageRPS := w1.Average
                  IsAnomaly := isAnomaly
                  ZScore := zScore })
    | _, _ => none
  | _, _ => none

/-- `AnalyticsEngine.processMetric` run by one worker without interference. -/
def AnalyticsEngine.processMetric (sqrt fabs : α → α) (ae : AnalyticsEngine α) (metric : Metric α) :
    Option (AnalyticsEngine α × AnalysisResult α) :=
  let l := ae.lookupStep metric
  let c := ae.createStep metric l.1 l.2
  c.1.updateStep sqrt fabs metric c.2.1 c.2.2

/-- Metrics processed one after the other by `processMetric`; the engine they leave behind. -/
def AnalyticsEngine.processAll (sqrt fabs : α → α) (ae : AnalyticsEngine α) :
    List (Metric α) → Option (AnalyticsEngine α)
  | [] => some ae
  | m :: ms => (ae.processMetric sqrt fabs m).bind
    (fun r => AnalyticsEngine.processAll sqrt fabs r.1 ms)

/-- Where a worker stands inside `processMetric`. -/
inductive Worker (α : Type) where
  | start (metric : Metric α)
  | checked (metric : Metric α) (rollingWindow anomalyDet : Option Nat)
  | ready (metric : Metric α) (rollingWindow anomalyDet : Option Nat)
  | done (result : AnalysisResult α)

/-- One atomic step of one worker: the read-locked lookups, then the write-locked block, then
the update.  The read/write lock makes the first two atomic with respect to each other; taking
the update as atomic too only removes interleavings.  A finished worker does not move. -/
def Worker.step (sqrt fabs : α → α) (ae : AnalyticsEngine α) :
    Worker α → Option (AnalyticsEngine α × Worker α)
  | .start m =>
    let l := ae.lookupStep m
    some (ae, .checked m l.1 l.2)
  | .checked m p q =>
    let c := ae.createStep m p q
    some (c.1, .ready m c.2.1 c.2.2)
  | .ready m p q => (ae.updateStep sqrt fabs m p q).map (fun r => (r.1, .done r.2))
  | .done r => some (ae, .done r)

/-- The engine and its workers under a schedule: each entry names the worker that takes the
next step. -/
def runSchedule (sqrt fabs : α → α) (ae : AnalyticsEngine α) (ws : List (Worker α)) :
    List Nat → Option (AnalyticsEngine α × List (Worker α))
  | [] => some (ae, ws)
  | i :: sched =>
    match ws[i]? with
    | none => none
    | some w =>
      match w.step sqrt fabs ae with
      | none => none
      | some (ae1, w1) => runSchedule sqrt fabs ae1 (ws.set i w1) sched

/-! ## handlers/metric_handler.go -/

/-- What `HandleMetric` writes back: the status code, and as `body` the error text of a 400
answer or the `device_id` echoed in the JSON object of a 200 answer. -/
structure Response where
  status : Nat
  body : String

/-- `MetricHandler.HandleMetric` on the handler's engine.  `decoded` is the outcome of the JSON
decoding of the request body (`none` being a decode error).  The result is the engine, the log
lines written and the response; the request counters are left out. -/
def HandleMetric {τ : Type} (timeParse : String → Option τ) (ae : AnalyticsEngine α)
    (decoded : Option (Metric α)) : AnalyticsEngine α × List String × Response :=
  match decoded with
  | none => (ae, [], { status := 400, body := "Invalid JSON format" })
  | some metric =>
    match metric.Validate timeParse with
    | some err => (ae, [], { status := 400, body := err })
    | none =>
      let r := ae.ProcessMetric metric
      (r.1, r.2, { status := 200, body := metric.DeviceID })

end Embedding

/-! ## Arithmetic of `float64`

Go's `float64` is IEEE 754 binary64.  The model below covers its finite values and the
operations the analytics code uses, each rounded to nearest, ties to even, on a 53-bit
significand.  The exponent range is not bounded (no overflow to infinity, no subnormals), and
the two operations that would give NaN or an infinity (division by zero, the square root of a
negative number) return zero; the analytics code guards its divisions and takes the root of a
sum of squares. -/

/-- A finite binary64 value `man * 2 ^ exp`, kept normalised: `man` is odd, or both
components are zero. -/
structure F64 where
  man : Int
  exp : Int
deriving DecidableEq

/-- Counting the bits of `n` by halving; the first argument bounds the number of steps. -/
def bitLengthAux : Nat → Nat → Nat
  | 0, _ => 0
  | fuel + 1, n => if n = 0 then 0 else bitLengthAux fuel (n / 2) + 1

/-- The number of bits of `n`: the least `b` with `n < 2 ^ b`. -/
def bitLength (n : Nat) : Nat := bitLengthAux n n

/-- Counting the trailing zero bits of `n` by halving; the first argument bounds the number of
steps. -/
def trailingZerosAux : Nat → Nat → Nat
  | 0, _ => 0
  | fuel + 1, n => if n % 2 = 0 then trailingZerosAux fuel (n / 2) + 1 else 0

/-- The number of trailing zero bits of `n`, and 0 for `n = 0`. -/
def trailingZeros (n : Nat) : Nat := if n = 0 then 0 else trailingZerosAux n n

/-- The normalised value `m * 2 ^ e`, without rounding. -/
def F64.normalize (m e : Int) : F64 :=
  if m = 0 then ⟨0, 0⟩
  else ⟨m / (2 ^ trailingZeros m.natAbs : Nat), e + (trailingZeros m.natAbs : Nat)⟩

/-- The value `m * 2 ^ e` rounded to a 53-bit significand, to nearest, ties to even. -/
def F64.round (m e : Int) : F64 :=
  let n := m.natAbs
  let bits := bitLength n
  if bits ≤ 53 then F64.normalize m e
  else
    let sh := bits - 53
    let q := n / 2 ^ sh
    let r := n % 2 ^ sh
    let half := 2 ^ (sh - 1)
    let q1 := if half < r ∨ (r = half ∧ q % 2 = 1) then q + 1 else q
    F64.normalize (if m < 0 then -(q1 : Int) else (q1 : Int)) (e + (sh : Nat))

/-- The integer `x.man * 2 ^ (x.exp - e)`, for `e ≤ x.exp`. -/
def F64.scaled (x : F64) (e : Int) : Int := x.man * (2 ^ (x.exp - e).toNat : Nat)

/-- Addition, correctly rounded. -/
def F64.add (x y : F64) : F64 :=
  F64.round (x.scaled (min x.exp y.exp) + y.scaled (min x.exp y.exp)) (min x.exp y.exp)

/-- Subtraction, correctly rounded. -/
def F64.sub (x y : F64) : F64 :=
  F64.round (x.scaled (min x.exp y.exp) - y.scaled (min x.exp y.exp)) (min x.exp y.exp)

/-- Multiplication, correctly rounded. -/
def F64.mul (x y : F64) : F64 := F64.round (x.man * y.man) (x.exp + y.exp)

/-- Division, correctly rounded: the quotient is computed to more than 63 bits, with one more
bit that records a non-zero remainder. -/
def F64.div (x y : F64) : F64 :=
  if y.man = 0 ∨ x.man = 0 then ⟨0, 0⟩
  else
    let k := 64 + bitLength y.man.natAbs
    let n := x.man.natAbs * 2 ^ k
    let q := n / y.man.natAbs
    let m := 2 * q + (if n % y.man.natAbs = 0 then 0 else 1)
    F64.round (if (x.man < 0) = (y.man < 0) then (m : Int) else -(m : Int))
      (x.exp - y.exp - (k : Nat) - 1)

/-- Newton's iteration for the integer square root, from a guess that is not below it. -/
def isqrtAux : Nat → Nat → Nat → Nat
  | 0, _, g => g
  | fuel + 1, n, g => if (g + n / g) / 2 < g then isqrtAux fuel n ((g + n / g) / 2) else g

/-- The integer square root: the largest `r` with `r * r ≤ n`. -/
def isqrt (n : Nat) : Nat :=
  if n ≤ 1 then n else isqrtAux (bitLength n + 64) n (2 ^ (bitLength n / 2 + 1))

/-- `math.Sqrt`, correctly rounded: the root is computed to more than 64 bits, with one more
bit that records an inexact root. -/
def F64.Sqrt (x : F64) : F64 :=
  if x.man ≤ 0 then ⟨0, 0⟩
  else
    let k : Nat := if (x.exp - 128) % 2 = 0 then 128 else 129
    let n := x.man.natAbs * 2 ^ k
    let r := isqrt n
    let m := 2 * r + (if r * r = n then 0 else 1)
    F64.round (m : Int) ((x.exp - (k : Nat)) / 2 - 1)

/-- `math.Abs`. -/
def F64.Abs (x : F64) : F64 := ⟨(x.man.natAbs : Int), x.exp⟩

/-- The conversion `float64(n)` of a non-negative integer. -/
def F64.ofNat (n : Nat) : F64 := F64.round (n : Int) 0

/-- The order of the values. -/
def F64.lt (x y : F64) : Bool :=
  decide (x.scaled (min x.exp y.exp) < y.scaled (min x.exp y.exp))

instance : Zero F64 := ⟨⟨0, 0⟩⟩

instance : One F64 := ⟨⟨1, 0⟩⟩

instance : OfNat F64 2 := ⟨⟨1, 1⟩⟩

instance : HAdd F64 F64 F64 := ⟨F64.add⟩

instance : Sub F64 := ⟨F64.sub⟩

instance : Mul F64 := ⟨F64.mul⟩

instance : Div F64 := ⟨F64.div⟩

instance : NatCast F64 := ⟨F64.ofNat⟩

instance : LT F64 := ⟨fun x y => F64.lt x y = true⟩

instance : DecidableRel (fun x y : F64 => x < y) :=
  fun x y => inferInstanceAs (Decidable (F64.lt x y = true))

/-- The binary64 value of the literal `0.1`: `0x3FB999999999999A`. -/
def F64.tenth : F64 := ⟨3602879701896397, -55⟩

section Exact

variable {α : Type} [LinearOrderedField α]

/-- The window `rw` of capacity `c` holds the inserts `xs`: the buffer is `A ++ B` with the
write position at the start of `B`, and `B ++ A` is the last `c` entries of the zero-filled
buffer followed by `xs`. -/
structure RollingWindow.Tracks (c : Nat) (xs : List α) (rw : RollingWindow α) : Prop where
  size : rw.windowSize = c
  index : rw.index = xs.length % c
  count : rw.count = min xs.length c
  split : ∃ A B : List α, rw.values = A ++ B ∧ A.length = rw.index ∧
    B ++ A = (List.replicate c (0 : α) ++ xs).drop xs.length
  sum : rw.sum = rw.GetValues.sum

/-- The arithmetic mean of a list of samples. -/
def mean (s : List α) : α := s.sum / (s.length : α)

/-- The population variance of a list of samples: the mean squared deviation from the mean
(divide by the count, not by the count minus one). -/
def popVariance (s : List α) : α :=
  (s.map (fun v => (v - mean s) ^ 2)).sum / (s.length : α)

/-- The verdict of a z-score test of `value` against the samples `s`, with `sd` as the standard
deviation and threshold `t`. -/
def zVerdict (s : List α) (sd t value : α) : Bool × α :=
  if sd = 0 then (false, 0)
  else (decide (|(value - mean s) / sd| > t), |(value - mean s) / sd|)

/-- The engine that knows exactly one device `d`, with window `w` and detector `ad`. -/
def engineOf (d : String) (w : RollingWindow α) (ad : AnomalyDetector α) : AnalyticsEngine α :=
  { windowHeap := [w], detectorHeap := [ad],
    rollingWindows := Function.update (fun _ => none) d (some 0),
    anomalyDets := Function.update (fun _ => none) d (some 0),
    metricChan := [] }

/-- The metric of the end-to-end scenario for device `sensor-1`, with the given `rps`. -/
def sensorMetric (rps : α) : Metric α :=
  { Timestamp := "2024-01-01T00:00:00Z", DeviceID := "sensor-1", CPU := 1 / 2, RPS := rps }

/-- A first metric of the previously unseen device `d`. -/
def firstMetric (rps : α) : Metric α :=
  { Timestamp := "2024-01-01T00:00:00Z", DeviceID := "d", CPU := 1 / 2, RPS := rps }

/-- Two workers interleaved: both look the device up before either takes the write lock. -/
def racySchedule : List Nat := [0, 1, 0, 1, 0, 1]

/-- The clamp to the inclusive range [4, 16]. -/
def clampWorkers (n : Int) : Int := max 4 (min 16 n)

/-- The warning logged by `ProcessMetric` for a dropped metric. -/
def dropWarning {β : Type} (m : Metric β) : String :=
  "WARNING: Metric channel is full, dropping metric from device " ++ m.DeviceID

/-- A stand-in for `time.Parse` that accepts exactly the time stamp of the scenario. -/
def scenarioTimeParse (s : String) : Option Unit :=
  if s = "2024-01-01T00:00:00Z" then some () else none

/-! ## Theorems: the rolling window -/

theorem tracks_new (c : Nat) : (NewRollingWindow c : RollingWindow α).Tracks c [] := by
  refine ⟨rfl, by simp [NewRollingWindow], by simp [NewRollingWindow], ?_, ?_⟩
  · exact ⟨[], List.replicate c 0, by simp [NewRollingWindow], by simp [NewRollingWindow],
      by simp⟩
  · simp only [NewRollingWindow, RollingWindow.GetValues]
    split_ifs <;> simp

/-- Writing at the start of `B` and advancing the position keeps the split of the buffer. -/
theorem split_step {β : Type} [Zero β] {c N : Nat} {xs A B1 : List β} {b : β} (x : β)
    (hA : A.length = N % c) (hN : N = xs.length) (hlen : A.length + (B1.length + 1) = c)
    (hBA : b :: B1 ++ A = (List.replicate c (0 : β) ++ xs).drop N) :
    ∃ A1 B2 : List β, A ++ x :: B1 = A1 ++ B2 ∧ A1.length = (N + 1) % c ∧
      B2 ++ A1 = (List.replicate c (0 : β) ++ (xs ++ [x])).drop (xs ++ [x]).length := by
  have hl : (xs ++ [x]).length = N + 1 := by simp [hN]
  rw [hl]
  have hdrop : (List.replicate c (0 : β) ++ (xs ++ [x])).drop (N + 1) = B1 ++ A ++ [x] := by
    have h1 : (List.replicate c (0 : β) ++ (xs ++ [x])).drop N
        = (List.replicate c (0 : β) ++ xs).drop N ++ [x] := by
      rw [← List.append_assoc]
      exact List.drop_append_of_le_length (by simp [hN])
    rw [← List.drop_drop, h1, ← hBA]
    simp
  have hidx : (N + 1) % c = (A.length + 1) % c := by
    rw [hA, Nat.mod_add_mod]
  rcases B1 with _ | ⟨b1, B3⟩
  · refine ⟨[], A ++ [x], by simp, ?_, by simpa using hdrop.symm⟩
    have : A.length + 1 = c := by simpa using hlen
    rw [hidx, this]; simp
  · refine ⟨A ++ [x], b1 :: B3, by simp, ?_, by simpa using hdrop.symm⟩
    have : A.length + 1 < c := by simp at hlen; omega
    rw [hidx, Nat.mod_eq_of_lt this]; simp

/-- One `Add` on a tracked window succeeds and the result tracks one more insert. -/
theorem tracks_add {c : Nat} (hc : 1 ≤ c) {xs : List α} {rw : RollingWindow α}
    (h : rw.Tracks c xs) (x : α) :
    ∃ rw1, rw.Add x = some rw1 ∧ rw1.Tracks c (xs ++ [x]) := by
  obtain ⟨A, B, hv, hA, hBA⟩ := h.split
  have hsz := h.size
  have hidx := h.index
  have hcnt := h.count
  have hlenBA : B.length + A.length = c := by
    have := congrArg List.length hBA
    simpa using this
  have hAlt : A.length < c := by rw [hA, hidx]; exact Nat.mod_lt _ (by omega)
  rcases B with _ | ⟨b, B1⟩
  · simp at hlenBA; omega
  have hlen : A.length + (B1.length + 1) = c := by simp at hlenBA; omega
  obtain ⟨A1, B2, hv1, hA1, hBA1⟩ := split_step x (hA.trans hidx) rfl hlen hBA
  have hset : rw.values.set rw.index x = A ++ x :: B1 := by
    rw [hv, ← hA]; simp
  have hget : rw.values[rw.index]? = some b := by
    rw [hv, ← hA, List.getElem?_append_right (le_refl _)]; simp
  have hsum := h.sum
  have hidx1 : (rw.index + 1) % c = (xs.length + 1) % c := by rw [hidx, Nat.mod_add_mod]
  by_cases hN : xs.length < c
  · have hcount : rw.count = xs.length := by rw [hcnt]; omega
    have hAN : A.length = xs.length := by rw [hA, hidx, Nat.mod_eq_of_lt hN]
    have hil : rw.index < rw.values.length := by rw [hv, ← hA]; simp
    have hold : rw.sum = A.sum := by
      rw [hsum]
      simp [RollingWindow.GetValues, hcount, hsz, hv, ← hAN, hAlt]
    have hadd : rw.Add x = some ⟨c, A ++ x :: B1, (xs.length + 1) % c, xs.length + 1,
        A.sum + x⟩ := by
      simp [RollingWindow.Add, hcount, hsz, hN, hil, hset, hidx1, hold]
    refine ⟨_, hadd, ⟨rfl, by simp, ?_, ⟨A1, B2, hv1, hA1, hBA1⟩, ?_⟩⟩
    · simp; omega
    · simp only [RollingWindow.GetValues]
      by_cases hN1 : xs.length + 1 < c
      · have hN2 : A.length + 1 < c := by omega
        have ht : List.take (A.length + 1) A = A := List.take_of_length_le (by omega)
        simp [hN2, ← hAN, List.take_append_eq_append_take, ht]
      · have hB1 : B1 = [] := by
          apply List.eq_nil_of_length_eq_zero; omega
        simp [hN1, hB1]
  · have hcount : rw.count = c := by rw [hcnt]; omega
    have hc0 : c ≠ 0 := by omega
    have hold : rw.sum = A.sum + (b + B1.sum) := by
      rw [hsum]
      simp [RollingWindow.GetValues, hcount, hsz, hv]
    have hadd : rw.Add x = some ⟨c, A ++ x :: B1, (xs.length + 1) % c, c,
        A.sum + (b + B1.sum) - b + x⟩ := by
      simp [RollingWindow.Add, hcount, hsz, hget, hc0, hset, hidx1, hold]
    refine ⟨_, hadd, ⟨rfl, by simp, ?_, ⟨A1, B2, hv1, hA1, hBA1⟩, ?_⟩⟩
    · simp; omega
    · simp only [RollingWindow.GetValues, lt_irrefl, if_false]
      simp
      ring

/-- A sequence of `Add` calls on a tracked window succeeds and is tracked. -/
theorem tracks_addAll {c : Nat} (hc : 1 ≤ c) (ys : List α) :
    ∀ {xs : List α} {rw : RollingWindow α}, rw.Tracks c xs →
      ∃ rw1, rw.AddAll ys = some rw1 ∧ rw1.Tracks c (xs ++ ys) := by
  induction ys with
  | nil => intro xs rw h; exact ⟨rw, rfl, by simpa using h⟩
  | cons y ys ih =>
    intro xs rw h
    obtain ⟨rw1, h1, ht1⟩ := tracks_add hc h y
    obtain ⟨rw2, h2, ht2⟩ := ih ht1
    exact ⟨rw2, by simp [RollingWindow.AddAll, h1, h2], by simpa using ht2⟩

/-- Every window built by `NewRollingWindow c` and `Add` calls is tracked. -/
theorem addAll_new {c : Nat} (hc : 1 ≤ c) (xs : List α) :
    ∃ rw : RollingWindow α, (NewRollingWindow c).AddAll xs = some rw ∧ rw.Tracks c xs := by
  simpa using tracks_addAll hc xs (tracks_new (α := α) c)

/-- While the window is filling, `GetValues` is the list of inserts. -/
theorem tracks_filling {c : Nat} {xs : List α} {rw : RollingWindow α}
    (h : rw.Tracks c xs) (hN : xs.length < c) : rw.GetValues = xs := by
  obtain ⟨A, B, hv, hA, hBA⟩ := h.split
  have hAN : A.length = xs.length := by rw [hA, h.index, Nat.mod_eq_of_lt hN]
  have hcount : rw.count = xs.length := by rw [h.count]; omega
  have hAx : A = xs := by
    rw [List.drop_append_of_le_length (by simp; omega)] at hBA
    exact List.append_inj_right' hBA hAN
  have hg : rw.GetValues = rw.values.take rw.count := by
    simp [RollingWindow.GetValues, hcount, h.size, hN]
  rw [hg, hv, hcount, ← hAN, ← hAx]
  simp [List.take_append_eq_append_take]

/-- Once the window is full, `GetValues` is the buffer `A ++ B` and `B ++ A` is the last `c` inserts. -/
theorem tracks_full {c : Nat} {xs : List α} {rw : RollingWindow α}
    (h : rw.Tracks c xs) (hN : c ≤ xs.length) :
    ∃ A B : List α, rw.GetValues = A ++ B ∧ A.length = xs.length % c ∧
      B ++ A = xs.drop (xs.length - c) := by
  obtain ⟨A, B, hv, hA, hBA⟩ := h.split
  have hcount : rw.count = c := by rw [h.count]; omega
  refine ⟨A, B, ?_, hA.trans h.index, ?_⟩
  · simp [RollingWindow.GetValues, hcount, h.size, hv]
  · rw [hBA, List.drop_append_eq_append_drop]
    simp [List.drop_eq_nil_of_le, hN]

/-- The number of samples is `min N c`. -/
theorem tracks_length {c : Nat} {xs : List α} {rw : RollingWindow α}
    (h : rw.Tracks c xs) : rw.GetValues.length = min xs.length c := by
  by_cases hN : xs.length < c
  · rw [tracks_filling h hN]; omega
  · obtain ⟨A, B, hg, -, hBA⟩ := tracks_full h (by omega)
    have := congrArg List.length hBA
    simp at this
    rw [hg]; simp; omega

/-- Rotated left by `N mod c`, `GetValues` is the last `min N c` inserts in insertion order. -/
theorem tracks_rotate {c : Nat} {xs : List α} {rw : RollingWindow α}
    (h : rw.Tracks c xs) :
    rw.GetValues.rotate (xs.length % c) = xs.drop (xs.length - min xs.length c) := by
  by_cases hN : xs.length < c
  · rw [tracks_filling h hN, Nat.mod_eq_of_lt hN, List.rotate_length]
    simp [Nat.min_eq_left (le_of_lt hN)]
  · obtain ⟨A, B, hg, hA, hBA⟩ := tracks_full h (by omega)
    rw [hg, ← hA, List.rotate_append_length_eq, hBA, Nat.min_eq_right (by omega)]

/-- The samples are the last `min N c` inserts up to order. -/
theorem tracks_perm {c : Nat} {xs : List α} {rw : RollingWindow α}
    (h : rw.Tracks c xs) :
    rw.GetValues.Perm (xs.drop (xs.length - min xs.length c)) := by
  rw [← tracks_rotate h]
  exact (List.rotate_perm _ _).symm

/-- The count is the number of samples. -/
theorem tracks_count {c : Nat} {xs : List α} {rw : RollingWindow α}
    (h : rw.Tracks c xs) : rw.count = rw.GetValues.length := by
  rw [tracks_length h, h.count]

/-- The average of a non-empty tracked window is the mean of its samples. -/
theorem tracks_average {c : Nat} {xs : List α} {rw : RollingWindow α}
    (h : rw.Tracks c xs) (hx : xs ≠ []) (hc : 1 ≤ c) :
    rw.Average = rw.GetValues.sum / (rw.GetValues.length : α) := by
  have hpos : 0 < xs.length := List.length_pos.mpr hx
  have hcnt : rw.count ≠ 0 := by rw [h.count]; omega
  simp [RollingWindow.Average, hcnt, ← tracks_count h, h.sum]

/-- C1, as stated, fails: with capacity 2 and the inserts 1, 2, 3 `GetValues` returns the raw
buffer `[3, 2]`, which is not the insertion-ordered `[2, 3]`. -/
theorem C1_order_counterexample :
    ((NewRollingWindow 2 : RollingWindow ℚ).AddAll [1, 2, 3]).map RollingWindow.GetValues
        = some [3, 2] ∧
      ((NewRollingWindow 2 : RollingWindow ℚ).AddAll [1, 2, 3]).map RollingWindow.GetValues
        ≠ some (List.drop (3 - min 3 2) [1, 2, 3]) := by
  constructor <;> decide

/-- C1 (amended): for every capacity `c ≥ 1` and every sequence `xs` of `N` inserts, all `Add`
calls succeed and `GetValues` has length `min N c` and holds the most recent `min N c` inserted
values: rotated left by `N mod c` it is that list in insertion order, oldest first.  It is in
insertion order itself when `N ≤ c` or `c` divides `N`. -/
theorem C1_getValues_rotation (c : Nat) (hc : 1 ≤ c) (xs : List α) :
    ∃ rw : RollingWindow α, (NewRollingWindow c).AddAll xs = some rw ∧
      rw.GetValues.length = min xs.length c ∧
      rw.GetValues.rotate (xs.length % c) = xs.drop (xs.length - min xs.length c) ∧
      rw.GetValues.Perm (xs.drop (xs.length - min xs.length c)) ∧
      (xs.length ≤ c ∨ c ∣ xs.length →
        rw.GetValues = xs.drop (xs.length - min xs.length c)) := by
  obtain ⟨rw, hrw, ht⟩ := addAll_new hc xs
  refine ⟨rw, hrw, tracks_length ht, tracks_rotate ht, tracks_perm ht, ?_⟩
  intro h
  have hr := tracks_rotate ht
  rcases h with h | h
  · rcases Nat.lt_or_ge xs.length c with h1 | h1
    · rw [tracks_filling ht h1, Nat.min_eq_left (le_of_lt h1)]
      simp
    · have h0 : xs.length % c = 0 := by rw [le_antisymm h h1, Nat.mod_self]
      rwa [h0, List.rotate_zero] at hr
  · rwa [Nat.mod_eq_zero_of_dvd h, List.rotate_zero] at hr

/-- C1 (amended) at capacity 2 with the inserts 1, 2, 3. -/
theorem C1_getValues_rotation_witness :
    ∃ rw : RollingWindow ℚ, (NewRollingWindow 2).AddAll [1, 2, 3] = some rw ∧
      rw.GetValues.length = min [(1 : ℚ), 2, 3].length 2 ∧
      rw.GetValues.rotate ([(1 : ℚ), 2, 3].length % 2)
        = [(1 : ℚ), 2, 3].drop ([(1 : ℚ), 2, 3].length - min [(1 : ℚ), 2, 3].length 2) ∧
      rw.GetValues.Perm
        ([(1 : ℚ), 2, 3].drop ([(1 : ℚ), 2, 3].length - min [(1 : ℚ), 2, 3].length 2)) ∧
      ([(1 : ℚ), 2, 3].length ≤ 2 ∨ 2 ∣ [(1 : ℚ), 2, 3].length →
        rw.GetValues
          = [(1 : ℚ), 2, 3].drop ([(1 : ℚ), 2, 3].length - min [(1 : ℚ), 2, 3].length 2)) :=
  C1_getValues_rotation 2 (by decide) [1, 2, 3]

/-- C2: for every capacity `c ≥ 1` and every sequence of `Add` calls (exact arithmetic), the
running sum equals the sum of the samples returned by `GetValues`, the count is their number and
is at most `c`, `Average` is their arithmetic mean when there is at least one sample, and
`Average` is 0 on a window with no samples. -/
theorem C2_sum_and_average (c : Nat) (hc : 1 ≤ c) (xs : List α) :
    ∃ rw : RollingWindow α, (NewRollingWindow c).AddAll xs = some rw ∧
      rw.sum = rw.GetValues.sum ∧
      rw.count = rw.GetValues.length ∧ rw.count ≤ c ∧
      rw.index = xs.length % c ∧
      (xs ≠ [] → rw.Average = rw.GetValues.sum / (rw.GetValues.length : α)) ∧
      (xs = [] → rw.Average = 0) ∧
      (NewRollingWindow c : RollingWindow α).Average = 0 := by
  obtain ⟨rw, hrw, ht⟩ := addAll_new hc xs
  refine ⟨rw, hrw, ht.sum, tracks_count ht, ?_, ht.index,
    fun hx => tracks_average ht hx hc, ?_, ?_⟩
  · rw [ht.count]; omega
  · intro hx
    simp [RollingWindow.Average, ht.count, hx]
  · simp [RollingWindow.Average, NewRollingWindow]

/-- C2 at capacity 2 with the inserts 1, 2, 3. -/
theorem C2_sum_and_average_witness :
    ∃ rw : RollingWindow ℚ, (NewRollingWindow 2).AddAll [1, 2, 3] = some rw ∧
      rw.sum = rw.GetValues.sum ∧
      rw.count = rw.GetValues.length ∧ rw.count ≤ 2 ∧
      rw.index = [(1 : ℚ), 2, 3].length % 2 ∧
      ([(1 : ℚ), 2, 3] ≠ [] → rw.Average = rw.GetValues.sum / (rw.GetValues.length : ℚ)) ∧
      ([(1 : ℚ), 2, 3] = [] → rw.Average = 0) ∧
      (NewRollingWindow 2 : RollingWindow ℚ).Average = 0 :=
  C2_sum_and_average 2 (by decide) [1, 2, 3]

/-! ## Theorems: mean and population variance -/

theorem mean_perm {s t : List α} (h : s.Perm t) : mean s = mean t := by
  simp [mean, h.sum_eq, h.length_eq]

/-- The population variance does not depend on the order of the samples. -/
theorem popVariance_perm {s t : List α} (h : s.Perm t) : popVariance s = popVariance t := by
  simp [popVariance, mean_perm h, (h.map _).sum_eq, h.length_eq]

/-- The population variance is not negative. -/
theorem popVariance_nonneg (s : List α) : 0 ≤ popVariance s := by
  unfold popVariance
  apply div_nonneg _ (Nat.cast_nonneg _)
  apply List.sum_nonneg
  intro x hx
  simp only [List.mem_map] at hx
  obtain ⟨v, -, rfl⟩ := hx
  positivity

/-- Identical samples have population variance zero. -/
theorem popVariance_replicate (n : Nat) (a : α) : popVariance (List.replicate n a) = 0 := by
  rcases Nat.eq_zero_or_pos n with h | h
  · simp [h, popVariance]
  · have hn : (n : α) ≠ 0 := by exact_mod_cast h.ne'
    have hm : mean (List.replicate n a) = a := by
      simp [mean, List.sum_replicate]
      field_simp
    simp [popVariance, hm]

/-- Sum of squared distances to a point, expanded. -/
theorem sum_sq_sub (x : α) (l : List α) :
    (l.map (fun y => (x - y) ^ 2)).sum
      = (l.length : α) * x ^ 2 - 2 * x * l.sum + (l.map (fun y => y ^ 2)).sum := by
  induction l with
  | nil => simp
  | cons y l ih => simp [ih]; ring

/-- The square of a sum is at most the count times the sum of squares. -/
theorem sq_sum_le (l : List α) :
    l.sum ^ 2 ≤ (l.length : α) * (l.map (fun y => y ^ 2)).sum := by
  induction l with
  | nil => simp
  | cons x l ih =>
    have h1 : 0 ≤ (l.map (fun y => (x - y) ^ 2)).sum := by
      apply List.sum_nonneg
      intro z hz
      simp only [List.mem_map] at hz
      obtain ⟨v, -, rfl⟩ := hz
      positivity
    rw [sum_sq_sub] at h1
    simp only [List.sum_cons, List.length_cons, List.map_cons, Nat.cast_add, Nat.cast_one]
    nlinarith

/-- The deviations from the mean sum to zero. -/
theorem sum_dev (s : List α) (hs : s ≠ []) : (s.map (fun v => v - mean s)).sum = 0 := by
  have hn : (s.length : α) ≠ 0 := by
    exact_mod_cast (List.length_pos.mpr hs).ne'
  have h : ∀ (m : α) (l : List α), (l.map (fun v => v - m)).sum = l.sum - l.length * m := by
    intro m l
    induction l with
    | nil => simp
    | cons y l ih => simp [ih]; ring
  rw [h, mean]
  field_simp

/-- Samuelson's inequality: a sample deviates from the mean by at most `sqrt (m - 1)` standard
deviations. -/
theorem sq_dev_le (s : List α) (v : α) (hv : v ∈ s) :
    (v - mean s) ^ 2 ≤ ((s.length : α) - 1) * popVariance s := by
  have hs : s ≠ [] := List.ne_nil_of_mem hv
  have hpos : 0 < s.length := List.length_pos.mpr hs
  have hn : (0 : α) < (s.length : α) := by exact_mod_cast hpos
  have hp : s.Perm (v :: s.erase v) := List.perm_cons_erase hv
  set t := s.erase v with ht
  set μ := mean s with hμ
  have hlen : s.length = t.length + 1 := by simpa using hp.length_eq
  have h0 : (v - μ) + (t.map (fun y => y - μ)).sum = 0 := by
    have := sum_dev s hs
    rw [((hp.map _).sum_eq)] at this
    simpa using this
  have hS : (s.map (fun y => (y - μ) ^ 2)).sum
      = (v - μ) ^ 2 + (t.map (fun y => (y - μ) ^ 2)).sum := by
    rw [((hp.map _).sum_eq)]; simp
  have hcs := sq_sum_le (t.map (fun y => y - μ))
  simp only [List.length_map, List.map_map] at hcs
  have hcs2 : (v - μ) ^ 2 ≤ (t.length : α) * (t.map (fun y => (y - μ) ^ 2)).sum := by
    have e : (t.map (fun y => y - μ)).sum = -(v - μ) := by linarith
    rw [e, neg_sq] at hcs
    simpa [Function.comp_def] using hcs
  have hvar : popVariance s * (s.length : α) = (s.map (fun y => (y - μ) ^ 2)).sum := by
    unfold popVariance
    rw [← hμ]
    field_simp
  have hl : (s.length : α) = (t.length : α) + 1 := by exact_mod_cast hlen
  have key : (s.length : α) * (v - μ) ^ 2
      ≤ ((s.length : α) - 1) * (popVariance s * (s.length : α)) := by
    rw [hvar, hS, hl]
    nlinarith
  have key2 : (s.length : α) * (v - μ) ^ 2
      ≤ (s.length : α) * (((s.length : α) - 1) * popVariance s) := by
    calc (s.length : α) * (v - μ) ^ 2
        ≤ ((s.length : α) - 1) * (popVariance s * (s.length : α)) := key
      _ = (s.length : α) * (((s.length : α) - 1) * popVariance s) := by ring
  exact le_of_mul_le_mul_left key2 hn

/-! ## Theorems: the anomaly detector -/

theorem foldl_sq_dev (a z : α) (l : List α) :
    l.foldl (fun variance v => variance + (v - a) * (v - a)) z
      = z + (l.map (fun v => (v - a) ^ 2)).sum := by
  induction l generalizing z with
  | nil => simp
  | cons x l ih => simp [ih, pow_two, add_assoc]

/-- On a tracked window `calculateStdDev` is the root of the population variance, or 0 below two samples. -/
theorem calculateStdDev_eq (sqrt : α → α) {c : Nat} (hc : 1 ≤ c) {xs : List α}
    {ad : AnomalyDetector α} (h : ad.window.Tracks c xs) :
    ad.calculateStdDev sqrt =
      if ad.window.GetValues.length < 2 then 0 else sqrt (popVariance ad.window.GetValues) := by
  unfold AnomalyDetector.calculateStdDev
  by_cases h2 : ad.window.GetValues.length < 2
  · simp [h2]
  · have hx : xs ≠ [] := by
      intro hx
      have hl := tracks_length h
      rw [hx, List.length_nil, Nat.zero_min] at hl
      omega
    simp only [h2, if_false, foldl_sq_dev, zero_add, popVariance, mean,
      tracks_average h hx hc]

/-- One `Detect` on a tracked detector succeeds, and what it returns. -/
theorem detect_eq (sqrt : α → α) {xs : List α} {ad : AnomalyDetector α}
    (h : ad.window.Tracks 50 xs) (value : α) :
    ∃ w : RollingWindow α, ad.window.Add value = some w ∧ w.Tracks 50 (xs ++ [value]) ∧
      ad.Detect sqrt abs value = some ({ ad with window := w },
        zVerdict w.GetValues
          (if w.GetValues.length < 2 then 0 else sqrt (popVariance w.GetValues))
          ad.threshold value) := by
  obtain ⟨w, hw, ht⟩ := tracks_add (by decide) h value
  refine ⟨w, hw, ht, ?_⟩
  have hsd := calculateStdDev_eq sqrt (by decide)
    (show ({ ad with window := w } : AnomalyDetector α).window.Tracks 50 (xs ++ [value]) from ht)
  have hav : w.Average = mean w.GetValues := tracks_average ht (by simp) (by decide)
  simp only [AnomalyDetector.Detect, hw, hsd, hav, zVerdict]
  split_ifs <;> rfl

/-- A sequence of `Detect` calls on a tracked detector succeeds and is tracked. -/
theorem detectAll_tracks (sqrt : α → α) (ys : List α) :
    ∀ {xs : List α} {ad : AnomalyDetector α}, ad.window.Tracks 50 xs →
      ∃ ad1, ad.DetectAll sqrt abs ys = some ad1 ∧ ad1.window.Tracks 50 (xs ++ ys) ∧
        ad1.threshold = ad.threshold := by
  induction ys with
  | nil => intro xs ad h; exact ⟨ad, rfl, by simpa using h, rfl⟩
  | cons y ys ih =>
    intro xs ad h
    obtain ⟨w, -, ht, hd⟩ := detect_eq sqrt h y
    obtain ⟨ad2, h2, ht2, hth⟩ := ih
      (show ({ ad with window := w } : AnomalyDetector α).window.Tracks 50 (xs ++ [y]) from ht)
    exact ⟨ad2, by simp [AnomalyDetector.DetectAll, hd, h2], by simpa using ht2, hth⟩

/-- Every detector reached from `NewAnomalyDetector` by `Detect` calls. -/
theorem detectAll_new (sqrt : α → α) (xs : List α) :
    ∃ ad : AnomalyDetector α, NewAnomalyDetector.DetectAll sqrt abs xs = some ad ∧
      ad.window.Tracks 50 xs ∧ ad.threshold = 2 := by
  simpa [NewAnomalyDetector] using
    detectAll_tracks sqrt xs
      (show (NewAnomalyDetector : AnomalyDetector α).window.Tracks 50 [] from tracks_new 50)

/-- One `Detect` on a tracked detector, with the samples it computes on. -/
theorem detect_spec (sqrt : α → α) {xs : List α} {ad : AnomalyDetector α}
    (h : ad.window.Tracks 50 xs) (value : α) :
    ∃ w : RollingWindow α, ad.window.Add value = some w ∧ w.Tracks 50 (xs ++ [value]) ∧
      w.GetValues.Perm (xs.drop (xs.length - 49) ++ [value]) ∧
      w.GetValues.length = min (xs.length + 1) 50 ∧
      w.Average = mean w.GetValues ∧
      ad.Detect sqrt abs value = some ({ ad with window := w },
        zVerdict w.GetValues
          (if w.GetValues.length < 2 then 0 else sqrt (popVariance w.GetValues))
          ad.threshold value) := by
  obtain ⟨w, hw, ht, hd⟩ := detect_eq sqrt h value
  refine ⟨w, hw, ht, ?_, by simpa using tracks_length ht,
    tracks_average ht (by simp) (by decide), hd⟩
  have hp := tracks_perm ht
  have e : (xs ++ [value]).length - min (xs ++ [value]).length 50 = xs.length - 49 := by
    simp only [List.length_append, List.length_singleton]; omega
  rw [e, List.drop_append_of_le_length (by omega)] at hp
  exact hp

/-! ## Theorems: the window and the detector in any arithmetic -/

theorem sqrt_popVariance_of_short (s : List ℝ) (h : s.length < 2) :
    Real.sqrt (popVariance s) = 0 := by
  have : popVariance s = 0 := by
    match s, h with
    | [], _ => simp [popVariance]
    | [x], _ => simp [popVariance, mean]
  rw [this, Real.sqrt_zero]

/-- Over the reals the guard for fewer than two samples changes nothing. -/
theorem stdDev_real (s : List ℝ) :
    (if s.length < 2 then 0 else Real.sqrt (popVariance s)) = Real.sqrt (popVariance s) := by
  split_ifs with h
  · exact (sqrt_popVariance_of_short s h).symm
  · rfl

/-- The z-score of a sample of the window is at most `sqrt (m - 1)`. -/
theorem zVerdict_snd_le (s : List ℝ) (t v : ℝ) (hv : v ∈ s) :
    (zVerdict s (Real.sqrt (popVariance s)) t v).2 ≤ Real.sqrt ((s.length : ℝ) - 1) := by
  unfold zVerdict
  split_ifs with h0
  · exact Real.sqrt_nonneg _
  · apply Real.abs_le_sqrt
    have hp : 0 < popVariance s := by
      rcases (popVariance_nonneg s).lt_or_eq with h | h
      · exact h
      · exact absurd (by rw [← h, Real.sqrt_zero]) h0
    rw [div_pow, Real.sq_sqrt hp.le, div_le_iff₀ hp]
    exact sq_dev_le s v hv

/-- Identical samples give the verdict `(false, 0)`. -/
theorem zVerdict_replicate (n : Nat) (t v : ℝ) :
    zVerdict (List.replicate n v) (Real.sqrt (popVariance (List.replicate n v))) t v
      = (false, 0) := by
  simp [zVerdict, popVariance_replicate]

/-- After `j` identical samples `a`, a sample `V ≠ a` has z-score `sqrt j`. -/
theorem zVerdict_const_then (s : List ℝ) (j : Nat) (a V t : ℝ) (hj : 1 ≤ j) (hV : V ≠ a)
    (hs : s.Perm (List.replicate j a ++ [V])) :
    zVerdict s (Real.sqrt (popVariance s)) t V
      = (decide (Real.sqrt j > t), Real.sqrt j) := by
  have hj0 : (0 : ℝ) < j := by exact_mod_cast hj
  have hj1 : ((j : ℝ) + 1) ≠ 0 := by positivity
  have hVa : V - a ≠ 0 := sub_ne_zero.mpr hV
  have hm : mean s = (j * a + V) / (j + 1) := by
    rw [mean_perm hs]
    simp [mean, List.sum_replicate]
  have hvar : popVariance s = j * (V - a) ^ 2 / (j + 1) ^ 2 := by
    rw [popVariance_perm hs]
    have hm2 : mean (List.replicate j a ++ [V]) = (j * a + V) / (j + 1) := by
      rw [← mean_perm hs, hm]
    simp only [popVariance, hm2]
    simp [List.sum_replicate]
    field_simp
    ring
  have hvpos : 0 < popVariance s := by rw [hvar]; positivity
  have hsd : Real.sqrt (popVariance s) ≠ 0 := (Real.sqrt_pos.mpr hvpos).ne'
  have hz : |(V - mean s) / Real.sqrt (popVariance s)| = Real.sqrt j := by
    rw [← Real.sqrt_sq (abs_nonneg _), sq_abs, div_pow, Real.sq_sqrt hvpos.le, hvar, hm]
    congr 1
    field_simp
    ring
  simp only [zVerdict, hsd, if_false, hz]

/-- The verdict when the standard deviation is zero. -/
theorem zVerdict_zero (s : List α) {sd : α} (t v : α) (h : sd = 0) :
    zVerdict s sd t v = (false, 0) := by
  unfold zVerdict; rw [if_pos h]

/-- The verdict when the standard deviation is not zero. -/
theorem zVerdict_ne (s : List α) {sd : α} (t v : α) (h : sd ≠ 0) :
    zVerdict s sd t v = (decide (|(v - mean s) / sd| > t), |(v - mean s) / sd|) := by
  unfold zVerdict; rw [if_neg h]

/-- The verdict does not depend on the order of the samples. -/
theorem zVerdict_perm {s u : List ℝ} (h : s.Perm u) (t v : ℝ) :
    zVerdict s (Real.sqrt (popVariance s)) t v = zVerdict u (Real.sqrt (popVariance u)) t v := by
  simp [zVerdict, mean_perm h, popVariance_perm h]

/-- What one `Detect` call does on a detector reached from a fresh one by the calls `xs`. -/
theorem detect_real (xs : List ℝ) (value : ℝ) :
    ∃ (ad : AnomalyDetector ℝ) (w : RollingWindow ℝ),
      NewAnomalyDetector.DetectAll Real.sqrt abs xs = some ad ∧
      ad.window.Add value = some w ∧ w.Tracks 50 (xs ++ [value]) ∧
      w.GetValues.Perm (xs.drop (xs.length - 49) ++ [value]) ∧
      w.GetValues.length = min (xs.length + 1) 50 ∧
      w.Average = mean w.GetValues ∧
      AnomalyDetector.calculateStdDev Real.sqrt { ad with window := w }
        = Real.sqrt (popVariance w.GetValues) ∧
      ad.Detect Real.sqrt abs value = some ({ ad with window := w },
        zVerdict w.GetValues (Real.sqrt (popVariance w.GetValues)) 2 value) := by
  obtain ⟨ad, had, ht, hth⟩ := detectAll_new Real.sqrt xs
  obtain ⟨w, hw, htw, hp, hl, hav, hd⟩ := detect_spec Real.sqrt ht value
  refine ⟨ad, w, had, hw, htw, hp, hl, hav, ?_, ?_⟩
  · rw [calculateStdDev_eq Real.sqrt (by decide)
      (show ({ ad with window := w } : AnomalyDetector ℝ).window.Tracks 50 (xs ++ [value])
        from htw)]
    exact stdDev_real _
  · rw [hd, stdDev_real, hth]

/-- In exact arithmetic: on a fresh detector, after any number `k` of calls `Detect v` with one
value `v`, the next call `Detect v` returns `(false, 0)`; with `k = 0` this is the first
call. -/
theorem exact_identical_values (v : ℝ) (k : Nat) :
    ∃ ad ad1 : AnomalyDetector ℝ,
      NewAnomalyDetector.DetectAll Real.sqrt abs (List.replicate k v) = some ad ∧
      ad.Detect Real.sqrt abs v = some (ad1, false, 0) := by
  obtain ⟨ad, w, had, -, -, hp, -, -, -, hd⟩ := detect_real (List.replicate k v) v
  refine ⟨ad, { ad with window := w }, had, ?_⟩
  have hp2 : w.GetValues.Perm (List.replicate (min k 49 + 1) v) := by
    have e : (List.replicate k v).drop ((List.replicate k v).length - 49) ++ [v]
        = List.replicate (min k 49 + 1) v := by
      rw [List.drop_replicate, List.length_replicate, List.replicate_succ']
      congr 2
      omega
    rwa [e] at hp
  rw [hd, zVerdict_perm hp2, zVerdict_replicate]

/-- C10: on a detector reached from a fresh one by `n - 1` calls, the `n`-th call returns a
z-score of at most `sqrt (m - 1)` with `m = min n 50`, hence at most 7, and no anomaly when
`n ≤ 5`; and after `k` calls with one value `a` (`1 ≤ k ≤ 49`) a call with `V ≠ a` returns the
z-score `sqrt k`, which is 7 after 49 calls with the value 10 (exact arithmetic). -/
theorem C10_zscore_bound (xs : List ℝ) (value : ℝ) (k : Nat) (a V : ℝ)
    (hk1 : 1 ≤ k) (hk2 : k ≤ 49) (hV : V ≠ a) :
    (∃ (ad ad1 : AnomalyDetector ℝ) (isAnomaly : Bool) (zScore : ℝ),
      NewAnomalyDetector.DetectAll Real.sqrt abs xs = some ad ∧
      ad.Detect Real.sqrt abs value = some (ad1, isAnomaly, zScore) ∧
      ad1.window.GetValues.length = min (xs.length + 1) 50 ∧
      zScore ≤ Real.sqrt (((min (xs.length + 1) 50 : Nat) : ℝ) - 1) ∧
      zScore ≤ 7 ∧
      (xs.length + 1 ≤ 5 → isAnomaly = false)) ∧
    (∃ (ad ad1 : AnomalyDetector ℝ) (isAnomaly : Bool),
      NewAnomalyDetector.DetectAll Real.sqrt abs (List.replicate k a) = some ad ∧
      ad.Detect Real.sqrt abs V = some (ad1, isAnomaly, Real.sqrt k) ∧
      ad1.window.GetValues.length = k + 1) ∧
    (V ≠ 10 → ∃ (ad ad1 : AnomalyDetector ℝ) (isAnomaly : Bool),
      NewAnomalyDetector.DetectAll Real.sqrt abs (List.replicate 49 10) = some ad ∧
      ad.Detect Real.sqrt abs V = some (ad1, isAnomaly, 7)) := by
  have attained : ∀ (j : Nat) (b U : ℝ), 1 ≤ j → j ≤ 49 → U ≠ b →
      ∃ (ad ad1 : AnomalyDetector ℝ) (isAnomaly : Bool),
        NewAnomalyDetector.DetectAll Real.sqrt abs (List.replicate j b) = some ad ∧
        ad.Detect Real.sqrt abs U = some (ad1, isAnomaly, Real.sqrt j) ∧
        ad1.window.GetValues.length = j + 1 := by
    intro j b U hj1 hj2 hU
    obtain ⟨ad, w, had, -, -, hp, hl, -, -, hd⟩ := detect_real (List.replicate j b) U
    have e : (List.replicate j b).drop ((List.replicate j b).length - 49) = List.replicate j b := by
      rw [List.length_replicate, Nat.sub_eq_zero_of_le hj2, List.drop_zero]
    rw [e] at hp
    rw [zVerdict_const_then _ j b U 2 hj1 hU hp] at hd
    refine ⟨ad, _, _, had, hd, ?_⟩
    rw [hl, List.length_replicate]; omega
  refine ⟨?_, attained k a V hk1 hk2 hV, ?_⟩
  · obtain ⟨ad, w, had, -, -, hp, hl, -, -, hd⟩ := detect_real xs value
    have hmem : value ∈ w.GetValues := hp.mem_iff.mpr (by simp)
    have hz := zVerdict_snd_le w.GetValues 2 value hmem
    rw [hl] at hz
    have h49 : Real.sqrt (((min (xs.length + 1) 50 : Nat) : ℝ) - 1) ≤ 7 := by
      rw [show (7 : ℝ) = Real.sqrt (7 ^ 2) from (Real.sqrt_sq (by norm_num)).symm]
      apply Real.sqrt_le_sqrt
      have : ((min (xs.length + 1) 50 : Nat) : ℝ) ≤ 50 := by exact_mod_cast Nat.min_le_right _ _
      rw [show (7 : ℝ) ^ 2 = 49 by norm_num]
      linarith
    have h2 : xs.length + 1 ≤ 5 →
        Real.sqrt (((min (xs.length + 1) 50 : Nat) : ℝ) - 1) ≤ 2 := by
      intro h5
      rw [show (2 : ℝ) = Real.sqrt (2 ^ 2) from (Real.sqrt_sq (by norm_num)).symm]
      apply Real.sqrt_le_sqrt
      have : ((min (xs.length + 1) 50 : Nat) : ℝ) ≤ 5 := by
        exact_mod_cast (Nat.min_le_left _ _).trans h5
      rw [show (2 : ℝ) ^ 2 = 4 by norm_num]
      linarith
    by_cases h0 : Real.sqrt (popVariance w.GetValues) = 0
    · rw [zVerdict_zero _ _ _ h0] at hd hz
      exact ⟨ad, _, false, 0, had, hd, hl, hz, hz.trans h49, fun _ => rfl⟩
    · rw [zVerdict_ne _ _ _ h0] at hd hz
      refine ⟨ad, _, _, _, had, hd, hl, hz, hz.trans h49, fun h5 => ?_⟩
      have hz2 := hz.trans (h2 h5)
      simpa using hz2
  · intro hV10
    obtain ⟨ad, ad1, b, had, hd, -⟩ := attained 49 10 V (by decide) (by decide) hV10
    refine ⟨ad, ad1, b, had, ?_⟩
    rw [hd]
    have : Real.sqrt ((49 : Nat) : ℝ) = 7 := by
      rw [show ((49 : Nat) : ℝ) = 7 ^ 2 by norm_num]
      exact Real.sqrt_sq (by norm_num)
    rw [this]

/-! ## Theorems: the engine, one worker -/

theorem processMetric_fresh (sqrt : α → α) (m : Metric α) :
    AnalyticsEngine.fresh.processMetric sqrt abs m
      = (engineOf m.DeviceID (NewRollingWindow 50) NewAnomalyDetector).processMetric sqrt abs m := by
  simp [AnalyticsEngine.processMetric, AnalyticsEngine.lookupStep, AnalyticsEngine.createStep,
    AnalyticsEngine.fresh, engineOf]

/-- One metric of the known device updates its window and its detector. -/
theorem processMetric_engineOf (sqrt : α → α) (m : Metric α) {w w1 : RollingWindow α}
    {ad ad1 : AnomalyDetector α} {r : Bool × α}
    (hw : w.Add m.RPS = some w1) (hd : ad.Detect sqrt abs m.RPS = some (ad1, r)) :
    (engineOf m.DeviceID w ad).processMetric sqrt abs m
      = some (engineOf m.DeviceID w1 ad1,
          { DeviceID := m.DeviceID, RollingAverageRPS := w1.Average,
            IsAnomaly := r.1, ZScore := r.2 }) := by
  simp [AnalyticsEngine.processMetric, AnalyticsEngine.lookupStep, AnalyticsEngine.createStep,
    AnalyticsEngine.updateStep, engineOf, hw, hd]

/-- Metrics of the known device, one after the other. -/
theorem processAll_engineOf (sqrt : α → α) (d : String) (ms : List (Metric α)) :
    ∀ {w w1 : RollingWindow α} {ad ad1 : AnomalyDetector α},
      (∀ m ∈ ms, m.DeviceID = d) →
      w.AddAll (ms.map Metric.RPS) = some w1 →
      ad.DetectAll sqrt abs (ms.map Metric.RPS) = some ad1 →
      (engineOf d w ad).processAll sqrt abs ms = some (engineOf d w1 ad1) := by
  induction ms with
  | nil =>
    intro w w1 ad ad1 _ hw hd
    simp only [List.map_nil, RollingWindow.AddAll, AnomalyDetector.DetectAll,
      Option.some.injEq] at hw hd
    simp [AnalyticsEngine.processAll, hw, hd]
  | cons m ms ih =>
    intro w w1 ad ad1 hdev hw hd
    have hm : m.DeviceID = d := hdev m (by simp)
    simp only [List.map_cons, RollingWindow.AddAll, AnomalyDetector.DetectAll] at hw hd
    cases hwa : w.Add m.RPS with
    | none => simp [hwa] at hw
    | some w2 =>
      cases hda : ad.Detect sqrt abs m.RPS with
      | none => simp [hda] at hd
      | some r =>
        obtain ⟨ad2, r2⟩ := r
        simp only [hwa, hda, Option.some_bind] at hw hd
        have hstep := processMetric_engineOf sqrt m hwa hda
        rw [hm] at hstep
        simp only [AnalyticsEngine.processAll, hstep, Option.some_bind]
        exact ih (fun x hx => hdev x (by simp [hx])) hw hd

/-- A non-empty run on a fresh engine starts by creating the device. -/
theorem processAll_fresh_cons (sqrt : α → α) (m : Metric α) (ms : List (Metric α)) :
    AnalyticsEngine.fresh.processAll sqrt abs (m :: ms)
      = (engineOf m.DeviceID (NewRollingWindow 50) NewAnomalyDetector).processAll sqrt abs
          (m :: ms) := by
  simp [AnalyticsEngine.processAll, processMetric_fresh]

/-- One `Add` on a tracked 50-sample window, with the samples it leaves. -/
theorem add_spec {xs : List α} {w : RollingWindow α} (h : w.Tracks 50 xs) (value : α) :
    ∃ w1 : RollingWindow α, w.Add value = some w1 ∧ w1.Tracks 50 (xs ++ [value]) ∧
      w1.GetValues.Perm (xs.drop (xs.length - 49) ++ [value]) ∧
      w1.Average = mean w1.GetValues := by
  obtain ⟨w1, hw, ht⟩ := tracks_add (by decide) h value
  refine ⟨w1, hw, ht, ?_, tracks_average ht (by simp) (by decide)⟩
  have hp := tracks_perm ht
  have e : (xs ++ [value]).length - min (xs ++ [value]).length 50 = xs.length - 49 := by
    simp only [List.length_append, List.length_singleton]; omega
  rw [e, List.drop_append_of_le_length (by omega)] at hp
  exact hp

/-- The end-to-end scenario in general: `n ≥ 1` metrics with rps `a`, then one with rps
`V ≠ a`. -/
theorem scenario_result (n : Nat) (hn : 1 ≤ n) (a V : ℝ) (hV : V ≠ a) :
    ∃ e e1 : AnalyticsEngine ℝ,
      AnalyticsEngine.fresh.processAll Real.sqrt abs (List.replicate n (sensorMetric a)) = some e ∧
      e.processMetric Real.sqrt abs (sensorMetric V) = some (e1,
        { DeviceID := "sensor-1"
          RollingAverageRPS := mean (List.replicate (min n 49) a ++ [V])
          IsAnomaly := decide (Real.sqrt ((min n 49 : Nat) : ℝ) > 2)
          ZScore := Real.sqrt ((min n 49 : Nat) : ℝ) }) := by
  obtain ⟨w, hw, htw⟩ := addAll_new (α := ℝ) (c := 50) (by decide) (List.replicate n a)
  obtain ⟨ad, had, htd, hth⟩ := detectAll_new Real.sqrt (List.replicate n a)
  have hmap : (List.replicate n (sensorMetric a)).map Metric.RPS = List.replicate n a := by
    simp [sensorMetric]
  have hall : AnalyticsEngine.fresh.processAll Real.sqrt abs (List.replicate n (sensorMetric a))
      = some (engineOf "sensor-1" w ad) := by
    obtain ⟨k, rfl⟩ : ∃ k, n = k + 1 := ⟨n - 1, by omega⟩
    rw [List.replicate_succ, processAll_fresh_cons, ← List.replicate_succ]
    exact processAll_engineOf Real.sqrt "sensor-1" _
      (fun m hm => by rw [List.eq_of_mem_replicate hm]; rfl)
      (by rw [hmap]; exact hw) (by rw [hmap]; exact had)
  have hdrop : (List.replicate n a).drop ((List.replicate n a).length - 49)
      = List.replicate (min n 49) a := by
    rw [List.drop_replicate, List.length_replicate]
    congr 1
    omega
  obtain ⟨w1, hw1, -, hp1, hav1⟩ := add_spec htw V
  obtain ⟨w2, -, -, hp2, -, -, hd⟩ := detect_spec Real.sqrt htd V
  rw [hdrop] at hp1 hp2
  rw [stdDev_real, hth, zVerdict_const_then _ _ a V 2 (by omega) hV hp2] at hd
  have hstep := processMetric_engineOf Real.sqrt (sensorMetric V) hw1 hd
  rw [hav1, mean_perm hp1] at hstep
  exact ⟨_, _, hall, hstep⟩

/-- C5, as stated, fails: the 51st result of the scenario has neither `is_anomaly = false` nor
`z_score = 0`. -/
theorem C5_zero_variance_counterexample :
    ¬ ∃ (e e1 : AnalyticsEngine ℝ) (r : AnalysisResult ℝ),
      AnalyticsEngine.fresh.processAll Real.sqrt abs (List.replicate 50 (sensorMetric 100))
        = some e ∧
      e.processMetric Real.sqrt abs (sensorMetric 1000) = some (e1, r) ∧
      (r.IsAnomaly = false ∨ r.ZScore = 0) := by
  rintro ⟨e, e1, r, he, hr, hz⟩
  obtain ⟨e2, e3, he2, hr2⟩ := scenario_result 50 (by decide) 100 1000 (by norm_num)
  rw [he] at he2
  cases he2
  rw [hr] at hr2
  cases hr2
  have h7 : Real.sqrt ((min 50 49 : Nat) : ℝ) = 7 := by
    rw [show ((min 50 49 : Nat) : ℝ) = 7 ^ 2 by norm_num]
    exact Real.sqrt_sq (by norm_num)
  rw [h7] at hz
  norm_num at hz

/-- C5 (amended): processing, in order on a fresh engine, fifty metrics for device `sensor-1`
with rps 100 and then one with rps 1000 succeeds (no fault), and the 51st result has rolling
average 118, `is_anomaly = true` and `z_score = 7`: the new sample is in the window when the
deviation is computed, so the variance is not zero. -/
theorem C5_scenario_anomaly :
    ∃ e e1 : AnalyticsEngine ℝ,
      AnalyticsEngine.fresh.processAll Real.sqrt abs (List.replicate 50 (sensorMetric 100))
        = some e ∧
      e.processMetric Real.sqrt abs (sensorMetric 1000) = some (e1,
        { DeviceID := "sensor-1", RollingAverageRPS := 118, IsAnomaly := true, ZScore := 7 }) := by
  obtain ⟨e, e1, he, hr⟩ := scenario_result 50 (by decide) 100 1000 (by norm_num)
  refine ⟨e, e1, he, ?_⟩
  have h7 : Real.sqrt ((min 50 49 : Nat) : ℝ) = 7 := by
    rw [show ((min 50 49 : Nat) : ℝ) = 7 ^ 2 by norm_num]
    exact Real.sqrt_sq (by norm_num)
  have hm : mean (List.replicate (min 50 49) (100 : ℝ) ++ [1000]) = 118 := by
    simp [mean, List.sum_replicate]
    norm_num
  rw [hr, h7, hm]
  norm_num

/-! ## Theorems: the engine, interleaved workers -/

/-- C6 on the code: two workers take the first two metrics of the unseen device `d`; both look
it up before either creates it.  Both then allocate: two windows and two detectors exist, the
map entries of the first worker are replaced by those of the second, and the stored window and
detector hold one sample although two metrics were processed. -/
theorem C6_duplicate_creation (sqrt fabs : ℚ → ℚ) :
    ∃ (e : AnalyticsEngine ℚ) (ws : List (Worker ℚ)),
      runSchedule sqrt fabs AnalyticsEngine.fresh
        [Worker.start (firstMetric 10), Worker.start (firstMetric 20)] racySchedule
        = some (e, ws) ∧
      e.windowHeap.length = 2 ∧ e.detectorHeap.length = 2 ∧
      e.rollingWindows "d" = some 1 ∧ e.anomalyDets "d" = some 1 ∧
      e.windowHeap.map RollingWindow.GetValues = [[10], [20]] ∧
      e.detectorHeap.map (fun ad => ad.window.GetValues) = [[10], [20]] := by
  refine ⟨_, _, rfl, ?_⟩
  decide

/-! ## Theorems: worker count, admission, validation -/

theorem numWorkers_cases (numCPU : Int) (envWorkers : String) (atoi : String → Option Int) :
    numWorkers numCPU envWorkers atoi =
      clampWorkers
        (if envWorkers = "" then numCPU * 2
         else match atoi envWorkers with
           | some w => if 0 < w then w else numCPU * 2
           | none => numCPU * 2) := by
  have hcl : ∀ n : Int, (if (if n < 4 then 4 else n) > 16 then 16
      else (if n < 4 then 4 else n)) = clampWorkers n := by
    intro n; unfold clampWorkers; split_ifs <;> omega
  by_cases he : envWorkers = ""
  · simp only [numWorkers, he, ne_eq, not_true_eq_false, if_false, if_true, hcl]
  · cases h : atoi envWorkers with
    | none => simp only [numWorkers, he, h, ne_eq, not_false_eq_true, if_true, if_false, hcl]
    | some w =>
      simp only [numWorkers, he, h, ne_eq, not_false_eq_true, if_true, if_false, hcl,
        gt_iff_lt]

/-- C8: the number of workers started by `NewAnalyticsEngine` is in [4, 16]; it is
`2 * numCPU` clamped to [4, 16] when the setting is empty (absent), not an integer or not
positive, and `w` clamped to [4, 16] when the setting is the positive integer `w`. -/
theorem C8_worker_count (numCPU : Int) (envWorkers : String) (atoi : String → Option Int) :
    4 ≤ (NewAnalyticsEngine (α := ℚ) numCPU envWorkers atoi).2 ∧
    (NewAnalyticsEngine (α := ℚ) numCPU envWorkers atoi).2 ≤ 16 ∧
    ((NewAnalyticsEngine (α := ℚ) numCPU envWorkers atoi).2 : Int)
      = numWorkers numCPU envWorkers atoi ∧
    ((envWorkers = "" ∨ atoi envWorkers = none ∨ ∃ w, atoi envWorkers = some w ∧ w ≤ 0) →
      numWorkers numCPU envWorkers atoi = clampWorkers (numCPU * 2)) ∧
    (∀ w : Int, envWorkers ≠ "" → atoi envWorkers = some w → 0 < w →
      numWorkers numCPU envWorkers atoi = clampWorkers w) := by
  have hc := numWorkers_cases numCPU envWorkers atoi
  have hb : ∀ n : Int, 4 ≤ clampWorkers n ∧ clampWorkers n ≤ 16 := by
    intro n; unfold clampWorkers; omega
  have h4 : 4 ≤ numWorkers numCPU envWorkers atoi := by rw [hc]; exact (hb _).1
  have h16 : numWorkers numCPU envWorkers atoi ≤ 16 := by rw [hc]; exact (hb _).2
  refine ⟨?_, ?_, ?_, ?_, ?_⟩
  · simp only [NewAnalyticsEngine]; omega
  · simp only [NewAnalyticsEngine]; omega
  · simp only [NewAnalyticsEngine]; omega
  · rintro (h | h | ⟨w, h, hw⟩)
    · rw [hc, if_pos h]
    · rw [hc, h]; simp
    · rw [hc, h]; simp [not_lt.mpr hw]
  · intro w he h hw
    rw [hc, if_neg he, h]; simp [hw]

/-- C8 at concrete settings: 1 processing unit and no setting gives 4 workers; the setting
`32` gives 16 workers; the setting `-3` is not positive and falls back to 2 x 6 = 12. -/
theorem C8_worker_count_witness :
    numWorkers 1 "" (fun _ => none) = clampWorkers (1 * 2) ∧
    numWorkers 1 "32" (fun _ => some 32) = clampWorkers 32 ∧
    numWorkers 6 "-3" (fun _ => some (-3)) = clampWorkers (6 * 2) :=
  ⟨(C8_worker_count 1 "" (fun _ => none)).2.2.2.1 (Or.inl rfl),
   (C8_worker_count 1 "32" (fun _ => some 32)).2.2.2.2 32 (by decide) rfl (by decide),
   (C8_worker_count 6 "-3" (fun _ => some (-3))).2.2.2.1
     (Or.inr (Or.inr ⟨-3, rfl, by decide⟩))⟩

/-- A burst fills the free room of the queue and drops the rest. -/
theorem processMetricAll_spec {β : Type} (ms : List (Metric β)) :
    ∀ ae : AnalyticsEngine β, ae.metricChan.length ≤ metricChanCap →
      ae.ProcessMetricAll ms =
        ({ ae with metricChan :=
            ae.metricChan ++ ms.take (metricChanCap - ae.metricChan.length) },
          (ms.drop (metricChanCap - ae.metricChan.length)).map dropWarning) := by
  induction ms with
  | nil => intro ae _; simp [AnalyticsEngine.ProcessMetricAll]
  | cons m ms ih =>
    intro ae h
    by_cases hlt : ae.metricChan.length < metricChanCap
    · obtain ⟨k, hk⟩ : ∃ k, metricChanCap - ae.metricChan.length = k + 1 :=
        ⟨metricChanCap - ae.metricChan.length - 1, by omega⟩
      have hk2 : metricChanCap - (ae.metricChan.length + 1) = k := by omega
      simp only [AnalyticsEngine.ProcessMetricAll, AnalyticsEngine.ProcessMetric, hlt, if_true]
      rw [ih _ (by simp; omega)]
      simp [hk, hk2]
    · have h0 : metricChanCap - ae.metricChan.length = 0 := by omega
      simp only [AnalyticsEngine.ProcessMetricAll, AnalyticsEngine.ProcessMetric, hlt, if_false]
      rw [ih _ h]
      simp [h0, dropWarning]

/-- A burst on a fresh engine. -/
theorem processMetricAll_fresh {β : Type} (ms : List (Metric β)) :
    (AnalyticsEngine.fresh : AnalyticsEngine β).ProcessMetricAll ms =
      ({ (AnalyticsEngine.fresh : AnalyticsEngine β) with
          metricChan := ms.take metricChanCap },
        (ms.drop metricChanCap).map dropWarning) := by
  have h := processMetricAll_spec ms (AnalyticsEngine.fresh : AnalyticsEngine β)
    (Nat.zero_le _)
  have h0 : metricChanCap - (AnalyticsEngine.fresh : AnalyticsEngine β).metricChan.length
      = metricChanCap := Nat.sub_zero _
  rw [h0] at h
  rw [h]
  rfl

/-- A burst of `10000 + n` copies of one metric on a fresh engine. -/
theorem burst_spill {β : Type} (m : Metric β) (n : Nat) :
    (AnalyticsEngine.fresh : AnalyticsEngine β).ProcessMetricAll
        (List.replicate (metricChanCap + n) m) =
      ({ (AnalyticsEngine.fresh : AnalyticsEngine β) with
          metricChan := List.replicate metricChanCap m },
        List.replicate n (dropWarning m)) := by
  rw [processMetricAll_fresh, List.take_replicate, List.drop_replicate, List.map_replicate,
    Nat.min_eq_left (Nat.le_add_right _ _), Nat.add_sub_cancel_left]

/-- C9, as stated, fails: a dropped metric moves no counter.  The engine after a burst of 10001
metrics is the engine after the first 10000 alone, field for field; the one trace of the drop is
the warning line. -/
theorem C9_no_drop_counter :
    ((AnalyticsEngine.fresh : AnalyticsEngine ℚ).ProcessMetricAll
        (List.replicate (10000 + 1) (sensorMetric 100))).1
      = ((AnalyticsEngine.fresh : AnalyticsEngine ℚ).ProcessMetricAll
        (List.replicate (10000 + 0) (sensorMetric 100))).1 ∧
    ((AnalyticsEngine.fresh : AnalyticsEngine ℚ).ProcessMetricAll
        (List.replicate (10000 + 1) (sensorMetric 100))).2
      = ["WARNING: Metric channel is full, dropping metric from device sensor-1"] := by
  have h1 := burst_spill (sensorMetric (100 : ℚ)) 1
  have h0 := burst_spill (sensorMetric (100 : ℚ)) 0
  unfold metricChanCap at h1 h0
  rw [h1, h0]
  exact ⟨rfl, rfl⟩

/-- C9 (amended): `ProcessMetric` always returns (it is total and has no error result).  With no
worker dequeuing, submitting the metrics `ms` to the empty queue of a fresh engine leaves the
first `min M 10000` of them queued in submission order and drops the rest; each drop leaves the
engine unchanged and writes one warning line, and nothing else records it. -/
theorem C9_admission {β : Type} (ms : List (Metric β)) (ae : AnalyticsEngine β) (m : Metric β)
    (hfull : metricChanCap ≤ ae.metricChan.length) :
    (AnalyticsEngine.fresh.ProcessMetricAll ms).1
      = { (AnalyticsEngine.fresh : AnalyticsEngine β) with
          metricChan := ms.take metricChanCap } ∧
    (AnalyticsEngine.fresh.ProcessMetricAll ms).1.metricChan.length = min 10000 ms.length ∧
    (AnalyticsEngine.fresh.ProcessMetricAll ms).2 = (ms.drop metricChanCap).map dropWarning ∧
    (AnalyticsEngine.fresh.ProcessMetricAll ms).2.length = ms.length - 10000 ∧
    ae.ProcessMetric m = (ae, [dropWarning m]) := by
  rw [processMetricAll_fresh]
  refine ⟨rfl, ?_, rfl, ?_, ?_⟩
  · exact List.length_take _ _
  · rw [List.length_map, List.length_drop]; rfl
  · simp [AnalyticsEngine.ProcessMetric, not_lt.mpr hfull, dropWarning]

/-- C9 (amended) at a burst of three metrics and a full queue. -/
theorem C9_admission_witness :
    (AnalyticsEngine.fresh.ProcessMetricAll
        [sensorMetric (1 : ℚ), sensorMetric 2, sensorMetric 3]).1
      = { (AnalyticsEngine.fresh : AnalyticsEngine ℚ) with
          metricChan := [sensorMetric (1 : ℚ), sensorMetric 2, sensorMetric 3].take
            metricChanCap } ∧
    (AnalyticsEngine.fresh.ProcessMetricAll
        [sensorMetric (1 : ℚ), sensorMetric 2, sensorMetric 3]).1.metricChan.length
      = min 10000 [sensorMetric (1 : ℚ), sensorMetric 2, sensorMetric 3].length ∧
    (AnalyticsEngine.fresh.ProcessMetricAll
        [sensorMetric (1 : ℚ), sensorMetric 2, sensorMetric 3]).2
      = ([sensorMetric (1 : ℚ), sensorMetric 2, sensorMetric 3].drop metricChanCap).map
          dropWarning ∧
    (AnalyticsEngine.fresh.ProcessMetricAll
        [sensorMetric (1 : ℚ), sensorMetric 2, sensorMetric 3]).2.length
      = [sensorMetric (1 : ℚ), sensorMetric 2, sensorMetric 3].length - 10000 ∧
    ({ (AnalyticsEngine.fresh : AnalyticsEngine ℚ) with
        metricChan := List.replicate 10000 (sensorMetric 7) }).ProcessMetric (sensorMetric 9)
      = ({ (AnalyticsEngine.fresh : AnalyticsEngine ℚ) with
            metricChan := List.replicate 10000 (sensorMetric 7) },
          [dropWarning (sensorMetric (9 : ℚ))]) :=
  C9_admission [sensorMetric 1, sensorMetric 2, sensorMetric 3]
    { (AnalyticsEngine.fresh : AnalyticsEngine ℚ) with
      metricChan := List.replicate 10000 (sensorMetric 7) }
    (sensorMetric 9) (le_of_eq (List.length_replicate 10000 (sensorMetric (7 : ℚ))).symm)

/-- The metrics that `Validate` accepts. -/
theorem validate_none_iff {τ : Type} (timeParse : String → Option τ) (m : Metric α) :
    m.Validate timeParse = none ↔
      m.DeviceID ≠ "" ∧ m.Timestamp ≠ "" ∧ (timeParse m.Timestamp).isSome ∧
        0 ≤ m.CPU ∧ m.CPU ≤ 1 ∧ 0 ≤ m.RPS := by
  unfold Metric.Validate
  constructor
  · intro h
    split_ifs at h with h1 h2 h3 h4 h5
    refine ⟨h1, h2, ?_, ?_, ?_, not_lt.mp h5⟩
    · cases hp : timeParse m.Timestamp with
      | none => simp [hp] at h3
      | some t => rfl
    · exact not_lt.mp (fun hc => h4 (Or.inl hc))
    · exact not_lt.mp (fun hc => h4 (Or.inr hc))
  · rintro ⟨h1, h2, h3, h4, h5, h6⟩
    have h3n : ¬ (timeParse m.Timestamp).isNone = true := by
      cases hp : timeParse m.Timestamp with
      | none => simp [hp] at h3
      | some t => simp
    have h45 : ¬ (m.CPU < 0 ∨ m.CPU > 1) := by
      rintro (hc | hc)
      · exact absurd hc (not_lt.mpr h4)
      · exact absurd hc (not_lt.mpr h5)
    rw [if_neg h1, if_neg h2, if_neg h3n, if_neg h45, if_neg (not_lt.mpr h6)]

/-- C7: `Validate` returns no error exactly when `device_id` and `timestamp` are non-empty, the
time stamp parses as RFC3339, `cpu` is in [0, 1] and `rps ≥ 0`.  `HandleMetric` either answers
400 and leaves the engine untouched, or the body decoded to a metric that passed `Validate`
(so with `cpu` in [0, 1] and `rps ≥ 0`) and that metric is what `ProcessMetric` receives.  A
metric with `device_id` empty, and one whose time stamp `bad` does not parse, are answered 400
without reaching the engine. -/
theorem C7_validation {τ : Type} (timeParse : String → Option τ) (ae : AnalyticsEngine α)
    (decoded : Option (Metric α)) (m : Metric α) (hbad : timeParse "bad" = none) :
    (m.Validate timeParse = none ↔
      m.DeviceID ≠ "" ∧ m.Timestamp ≠ "" ∧ (timeParse m.Timestamp).isSome ∧
        0 ≤ m.CPU ∧ m.CPU ≤ 1 ∧ 0 ≤ m.RPS) ∧
    (((HandleMetric timeParse ae decoded).1 = ae ∧
        (HandleMetric timeParse ae decoded).2.1 = [] ∧
        (HandleMetric timeParse ae decoded).2.2.status = 400 ∧
        (decoded = none ∨ ∃ m1 err, decoded = some m1 ∧ m1.Validate timeParse = some err)) ∨
      ∃ m1, decoded = some m1 ∧ m1.Validate timeParse = none ∧
        0 ≤ m1.CPU ∧ m1.CPU ≤ 1 ∧ 0 ≤ m1.RPS ∧
        (HandleMetric timeParse ae decoded).1 = (ae.ProcessMetric m1).1 ∧
        (HandleMetric timeParse ae decoded).2.1 = (ae.ProcessMetric m1).2 ∧
        (HandleMetric timeParse ae decoded).2.2.status = 200) ∧
    (m.DeviceID = "" →
      HandleMetric timeParse ae (some m)
        = (ae, [], { status := 400, body := "device_id is required" })) ∧
    (m.DeviceID ≠ "" → m.Timestamp = "bad" →
      HandleMetric timeParse ae (some m)
        = (ae, [], { status := 400, body := "invalid timestamp format, expected RFC3339" })) := by
  refine ⟨validate_none_iff timeParse m, ?_, ?_, ?_⟩
  · cases decoded with
    | none => exact Or.inl ⟨rfl, rfl, rfl, Or.inl rfl⟩
    | some m1 =>
      cases hv : m1.Validate timeParse with
      | some err =>
        have hH : HandleMetric timeParse ae (some m1)
            = (ae, [], { status := 400, body := err }) := by
          simp [HandleMetric, hv]
        rw [hH]
        exact Or.inl ⟨rfl, rfl, rfl, Or.inr ⟨m1, err, rfl, hv⟩⟩
      | none =>
        have hH : HandleMetric timeParse ae (some m1)
            = ((ae.ProcessMetric m1).1, (ae.ProcessMetric m1).2,
                { status := 200, body := m1.DeviceID }) := by
          simp [HandleMetric, hv]
        obtain ⟨-, -, -, h4, h5, h6⟩ := (validate_none_iff timeParse m1).mp hv
        rw [hH]
        exact Or.inr ⟨m1, rfl, hv, h4, h5, h6, rfl, rfl, rfl⟩
  · intro h
    simp [HandleMetric, Metric.Validate, h]
  · intro h1 h2
    simp [HandleMetric, Metric.Validate, h1, h2, hbad]

/-- C7 on the two metrics of the rejection scenario: `device_id` empty, and time stamp `bad`. -/
theorem C7_validation_witness :
    HandleMetric scenarioTimeParse (AnalyticsEngine.fresh : AnalyticsEngine ℚ)
        (some { Timestamp := "2024-01-01T00:00:00Z", DeviceID := "", CPU := 1 / 2, RPS := 10 })
      = (AnalyticsEngine.fresh, [], { status := 400, body := "device_id is required" }) ∧
    HandleMetric scenarioTimeParse (AnalyticsEngine.fresh : AnalyticsEngine ℚ)
        (some { Timestamp := "bad", DeviceID := "x", CPU := 1 / 2, RPS := 10 })
      = (AnalyticsEngine.fresh, [],
          { status := 400, body := "invalid timestamp format, expected RFC3339" }) ∧
    (({ Timestamp := "2024-01-01T00:00:00Z", DeviceID := "sensor-1", CPU := 1 / 2, RPS := 100 } :
        Metric ℚ).Validate scenarioTimeParse = none ↔
      "sensor-1" ≠ "" ∧ "2024-01-01T00:00:00Z" ≠ "" ∧
        (scenarioTimeParse "2024-01-01T00:00:00Z").isSome ∧
        (0 : ℚ) ≤ 1 / 2 ∧ (1 / 2 : ℚ) ≤ 1 ∧ (0 : ℚ) ≤ 100) :=
  ⟨(C7_validation scenarioTimeParse (AnalyticsEngine.fresh : AnalyticsEngine ℚ) none
      { Timestamp := "2024-01-01T00:00:00Z", DeviceID := "", CPU := 1 / 2, RPS := 10 }
      (by decide)).2.2.1 rfl,
   (C7_validation scenarioTimeParse (AnalyticsEngine.fresh : AnalyticsEngine ℚ) none
      { Timestamp := "bad", DeviceID := "x", CPU := 1 / 2, RPS := 10 }
      (by decide)).2.2.2 (by decide) rfl,
   (C7_validation scenarioTimeParse (AnalyticsEngine.fresh : AnalyticsEngine ℚ) none
      { Timestamp := "2024-01-01T00:00:00Z", DeviceID := "sensor-1", CPU := 1 / 2, RPS := 100 }
      (by decide)).1⟩

/-- C10 at the calls 1, 5, then 3, and at 49 calls with the value 10 followed by 11. -/
theorem C10_zscore_bound_witness :
    (∃ (ad ad1 : AnomalyDetector ℝ) (isAnomaly : Bool) (zScore : ℝ),
      NewAnomalyDetector.DetectAll Real.sqrt abs [1, 5] = some ad ∧
      ad.Detect Real.sqrt abs 3 = some (ad1, isAnomaly, zScore) ∧
      ad1.window.GetValues.length = min ([(1 : ℝ), 5].length + 1) 50 ∧
      zScore ≤ Real.sqrt (((min ([(1 : ℝ), 5].length + 1) 50 : Nat) : ℝ) - 1) ∧
      zScore ≤ 7 ∧
      ([(1 : ℝ), 5].length + 1 ≤ 5 → isAnomaly = false)) ∧
    (∃ (ad ad1 : AnomalyDetector ℝ) (isAnomaly : Bool),
      NewAnomalyDetector.DetectAll Real.sqrt abs (List.replicate 49 10) = some ad ∧
      ad.Detect Real.sqrt abs 11 = some (ad1, isAnomaly, Real.sqrt (49 : Nat)) ∧
      ad1.window.GetValues.length = 49 + 1) ∧
    ((11 : ℝ) ≠ 10 → ∃ (ad ad1 : AnomalyDetector ℝ) (isAnomaly : Bool),
      NewAnomalyDetector.DetectAll Real.sqrt abs (List.replicate 49 10) = some ad ∧
      ad.Detect Real.sqrt abs 11 = some (ad1, isAnomaly, 7)) :=
  C10_zscore_bound [1, 5] 3 49 10 11 (by decide) (by decide) (by norm_num)


/-! ## Theorems: the detector in any arithmetic -/

/-- The first `Detect` call on a fresh detector returns `(false, 0)` for every value, whatever
the arithmetic and whatever `math.Sqrt` and `math.Abs` compute: one sample is fewer than two. -/
theorem first_detect {β : Type} [Zero β] [HAdd β β β] [Sub β] [Mul β] [Div β] [NatCast β]
    [OfNat β 2] [LT β] [DecidableEq β] [DecidableRel (fun a b : β => a < b)]
    (sqrt fabs : β → β) (v : β) :
    (NewAnomalyDetector.Detect sqrt fabs v).map Prod.snd = some (false, 0) := by
  simp [AnomalyDetector.Detect, RollingWindow.Add, NewAnomalyDetector, NewRollingWindow,
    AnomalyDetector.calculateStdDev, RollingWindow.GetValues]

/-! ## Theorems: the detector in binary64 arithmetic -/

set_option maxRecDepth 100000 in
/-- C4 on the code, in binary64 arithmetic: three consecutive calls `Detect(0.1)` on a fresh
detector.  The first two return `(false, 0)`.  After the third the running sum is
`0.30000000000000004` and its third part `0.10000000000000002` is not `0.1`: every deviation
is `2 ^ -56`, the standard deviation is `2 ^ -56`, the test `stdDev == 0` fails and the call
returns the z-score 1. -/
theorem C4_float64_identical_values :
    (NewAnomalyDetector.Detect F64.Sqrt F64.Abs F64.tenth).map Prod.snd = some (false, 0) ∧
    ((NewAnomalyDetector.DetectAll F64.Sqrt F64.Abs [F64.tenth]).bind
      (fun ad => (ad.Detect F64.Sqrt F64.Abs F64.tenth).map Prod.snd)) = some (false, 0) ∧
    ((NewAnomalyDetector.DetectAll F64.Sqrt F64.Abs [F64.tenth, F64.tenth]).bind
      (fun ad => (ad.Detect F64.Sqrt F64.Abs F64.tenth).map Prod.snd)) = some (false, 1) ∧
    ((NewAnomalyDetector.DetectAll F64.Sqrt F64.Abs [F64.tenth, F64.tenth]).bind
      (fun ad => (ad.window.Add F64.tenth).map
        (fun w => (w.sum, w.Average, F64.tenth - w.Average)))) =
      some (⟨1351079888211149, -52⟩, ⟨7205759403792795, -56⟩, ⟨-1, -56⟩) := by
  decide

end Exact

end Analytics
